import Mathlib

/-!
Verification of the pyol P3 packet codec and messaging substrate.

The definitions below are a shallow embedding of the Python sources:
bytes become lists of naturals (each < 256 where byte-ness matters),
struct packing that can raise becomes Option-valued serialization, and
exceptions on decode become Option results.  Source files embedded:
src/pyol/p3/packet.py, src/pyol/lib/aio.py, src/pyol/lib/msg.py.
-/

namespace Pyol

/-! ### CRC16-ARC (packet.py lines 18-65) -/

/-- The 256-entry lookup table from packet.py, transcribed verbatim. -/
def crcTable : List Nat := [
  0x0000, 0xC0C1, 0xC181, 0x0140, 0xC301, 0x03C0, 0x0280, 0xC241, 0xC601,
  0x06C0, 0x0780, 0xC741, 0x0500, 0xC5C1, 0xC481, 0x0440, 0xCC01, 0x0CC0,
  0x0D80, 0xCD41, 0x0F00, 0xCFC1, 0xCE81, 0x0E40, 0x0A00, 0xCAC1, 0xCB81,
  0x0B40, 0xC901, 0x09C0, 0x0880, 0xC841, 0xD801, 0x18C0, 0x1980, 0xD941,
  0x1B00, 0xDBC1, 0xDA81, 0x1A40, 0x1E00, 0xDEC1, 0xDF81, 0x1F40, 0xDD01,
  0x1DC0, 0x1C80, 0xDC41, 0x1400, 0xD4C1, 0xD581, 0x1540, 0xD701, 0x17C0,
  0x1680, 0xD641, 0xD201, 0x12C0, 0x1380, 0xD341, 0x1100, 0xD1C1, 0xD081,
  0x1040, 0xF001, 0x30C0, 0x3180, 0xF141, 0x3300, 0xF3C1, 0xF281, 0x3240,
  0x3600, 0xF6C1, 0xF781, 0x3740, 0xF501, 0x35C0, 0x3480, 0xF441, 0x3C00,
  0xFCC1, 0xFD81, 0x3D40, 0xFF01, 0x3FC0, 0x3E80, 0xFE41, 0xFA01, 0x3AC0,
  0x3B80, 0xFB41, 0x3900, 0xF9C1, 0xF881, 0x3840, 0x2800, 0xE8C1, 0xE981,
  0x2940, 0xEB01, 0x2BC0, 0x2A80, 0xEA41, 0xEE01, 0x2EC0, 0x2F80, 0xEF41,
  0x2D00, 0xEDC1, 0xEC81, 0x2C40, 0xE401, 0x24C0, 0x2580, 0xE541, 0x2700,
  0xE7C1, 0xE681, 0x2640, 0x2200, 0xE2C1, 0xE381, 0x2340, 0xE101, 0x21C0,
  0x2080, 0xE041, 0xA001, 0x60C0, 0x6180, 0xA141, 0x6300, 0xA3C1, 0xA281,
  0x6240, 0x6600, 0xA6C1, 0xA781, 0x6740, 0xA501, 0x65C0, 0x6480, 0xA441,
  0x6C00, 0xACC1, 0xAD81, 0x6D40, 0xAF01, 0x6FC0, 0x6E80, 0xAE41, 0xAA01,
  0x6AC0, 0x6B80, 0xAB41, 0x6900, 0xA9C1, 0xA881, 0x6840, 0x7800, 0xB8C1,
  0xB981, 0x7940, 0xBB01, 0x7BC0, 0x7A80, 0xBA41, 0xBE01, 0x7EC0, 0x7F80,
  0xBF41, 0x7D00, 0xBDC1, 0xBC81, 0x7C40, 0xB401, 0x74C0, 0x7580, 0xB541,
  0x7700, 0xB7C1, 0xB681, 0x7640, 0x7200, 0xB2C1, 0xB381, 0x7340, 0xB101,
  0x71C0, 0x7080, 0xB041, 0x5000, 0x90C1, 0x9181, 0x5140, 0x9301, 0x53C0,
  0x5280, 0x9241, 0x9601, 0x56C0, 0x5780, 0x9741, 0x5500, 0x95C1, 0x9481,
  0x5440, 0x9C01, 0x5CC0, 0x5D80, 0x9D41, 0x5F00, 0x9FC1, 0x9E81, 0x5E40,
  0x5A00, 0x9AC1, 0x9B81, 0x5B40, 0x9901, 0x59C0, 0x5880, 0x9841, 0x8801,
  0x48C0, 0x4980, 0x8941, 0x4B00, 0x8BC1, 0x8A81, 0x4A40, 0x4E00, 0x8EC1,
  0x8F81, 0x4F40, 0x8D01, 0x4DC0, 0x4C80, 0x8C41, 0x4400, 0x84C1, 0x8581,
  0x4540, 0x8701, 0x47C0, 0x4680, 0x8641, 0x8201, 0x42C0, 0x4380, 0x8341,
  0x4100, 0x81C1, 0x8081, 0x4040]

/-- Embedding of crc16_arc: table-driven fold with per-byte step
crc = (crc >> 8) XOR table[(crc XOR byte) & 0xFF], starting from 0. -/
def crc16_arc (data : List Nat) : Nat :=
  data.foldl (fun crc byte => (crc >>> 8) ^^^ crcTable.getD ((crc ^^^ byte) &&& 0xFF) 0) 0

/-- Modelled from the spec: one shift step of the bitwise reflected-0xA001
CRC reference definition (if crc is odd, shift right and xor the polynomial,
else just shift right). -/
def crcBitStep (c : Nat) : Nat :=
  if c % 2 = 1 then (c >>> 1) ^^^ 0xA001 else c >>> 1

/-- n iterations of the bit step. -/
def crcBitsteps : Nat → Nat → Nat
  | 0, c => c
  | n + 1, c => crcBitsteps n (crcBitStep c)

/-- Modelled from the spec: bitwise reflected-0xA001 reference definition
of CRC16-ARC (ARC variant: init 0, no final xor, reflected in and out):
xor each byte into the low bits, then run eight shift steps. -/
def crc16_arc_ref (data : List Nat) : Nat :=
  data.foldl (fun c b => crcBitsteps 8 (c ^^^ b)) 0

theorem shiftRight_xor_distrib (x y n : Nat) :
    (x ^^^ y) >>> n = (x >>> n) ^^^ (y >>> n) := by
  apply Nat.eq_of_testBit_eq
  intro i
  simp [Nat.testBit_shiftRight, Nat.testBit_xor]

theorem crcBitStep_xor (a b : Nat) :
    crcBitStep (a ^^^ b) = crcBitStep a ^^^ crcBitStep b := by
  have hmod : (a ^^^ b) % 2 = (a % 2) ^^^ (b % 2) := by
    rw [← Nat.and_one_is_mod, ← Nat.and_one_is_mod, ← Nat.and_one_is_mod,
      Nat.and_xor_distrib_right]
  have h2 : ∀ x y p : Nat, (x ^^^ y) ^^^ p = (x ^^^ p) ^^^ y := by
    intro x y p
    rw [Nat.xor_assoc, Nat.xor_comm y p, ← Nat.xor_assoc]
  have h3 : ∀ x y p : Nat, x ^^^ y = (x ^^^ p) ^^^ (y ^^^ p) := by
    intro x y p
    symm
    rw [Nat.xor_assoc x p (y ^^^ p), ← Nat.xor_assoc p y p, Nat.xor_comm p y,
      Nat.xor_assoc y p p, Nat.xor_self, Nat.xor_zero]
  rcases Nat.mod_two_eq_zero_or_one a with ha | ha <;>
    rcases Nat.mod_two_eq_zero_or_one b with hb | hb <;>
      simp [crcBitStep, hmod, ha, hb, shiftRight_xor_distrib] <;>
      first
        | exact Nat.xor_assoc _ _ _
        | exact h2 _ _ _
        | exact h3 _ _ _

theorem crcBitsteps_xor (n a b : Nat) :
    crcBitsteps n (a ^^^ b) = crcBitsteps n a ^^^ crcBitsteps n b := by
  induction n generalizing a b with
  | zero => rfl
  | succ k ih => simp [crcBitsteps, crcBitStep_xor, ih]

theorem crcBitStep_two_mul (x : Nat) : crcBitStep (2 * x) = x := by
  have h2 : (2 * x) % 2 = 0 := Nat.mul_mod_right 2 x
  have hs : (2 * x) >>> 1 = x := by
    rw [Nat.shiftRight_eq_div_pow]
    omega
  simp [crcBitStep, h2, hs]

theorem crcBitsteps_shiftLeft (n h : Nat) : crcBitsteps n (h <<< n) = h := by
  induction n generalizing h with
  | zero => simp [crcBitsteps, Nat.shiftLeft_eq]
  | succ k ih =>
    have : h <<< (k + 1) = 2 * (h <<< k) := Nat.shiftLeft_succ h k
    simp [crcBitsteps, this, crcBitStep_two_mul, ih]

theorem nat_split_eight (x : Nat) : x = ((x >>> 8) <<< 8) ^^^ (x &&& 255) := by
  apply Nat.eq_of_testBit_eq
  intro i
  have h255 : (255 : Nat) = 2 ^ 8 - 1 := by norm_num
  simp only [Nat.testBit_xor, Nat.testBit_shiftLeft, Nat.testBit_shiftRight,
    Nat.testBit_and, h255, Nat.testBit_two_pow_sub_one]
  by_cases h : 8 ≤ i
  · have hi : 8 + (i - 8) = i := by omega
    have hlt : ¬ (i < 8) := by omega
    simp [h, hi, hlt]
  · have hlt : i < 8 := by omega
    simp [h, hlt]

theorem crcBitsteps_split (x : Nat) :
    crcBitsteps 8 x = (x >>> 8) ^^^ crcBitsteps 8 (x &&& 255) := by
  conv_lhs => rw [nat_split_eight x]
  rw [crcBitsteps_xor, crcBitsteps_shiftLeft]

set_option maxRecDepth 4096 in
theorem crcTable_spec : ∀ i < 256, crcTable.getD i 0 = crcBitsteps 8 i := by
  decide

theorem crc_step_eq (c b : Nat) (hb : b < 256) :
    (c >>> 8) ^^^ crcTable.getD ((c ^^^ b) &&& 0xFF) 0 = crcBitsteps 8 (c ^^^ b) := by
  have hidx : (c ^^^ b) &&& 0xFF < 256 := by
    have := Nat.and_le_right (n := c ^^^ b) (m := 0xFF)
    omega
  rw [crcTable_spec _ hidx, crcBitsteps_split (c ^^^ b)]
  have hcb : (c ^^^ b) >>> 8 = c >>> 8 := by
    rw [shiftRight_xor_distrib]
    have : b >>> 8 = 0 := by
      rw [Nat.shiftRight_eq_div_pow]
      omega
    simp [this]
  rw [hcb]

theorem crc_fold_eq (data : List Nat) (c : Nat) (hd : ∀ b ∈ data, b < 256) :
    data.foldl (fun crc byte => (crc >>> 8) ^^^ crcTable.getD ((crc ^^^ byte) &&& 0xFF) 0) c
      = data.foldl (fun c b => crcBitsteps 8 (c ^^^ b)) c := by
  induction data generalizing c with
  | nil => rfl
  | cons x xs ih =>
    have hx : x < 256 := hd x (by simp)
    have hxs : ∀ b ∈ xs, b < 256 := fun b hb => hd b (by simp [hb])
    simp only [List.foldl_cons]
    rw [crc_step_eq c x hx]
    exact ih _ hxs

/-- C3: crc16_arc (the table-driven fold) agrees with the bitwise
reflected-0xA001 reference definition of CRC16-ARC on every byte string,
and crc16_arc of the bytes of "Deceptio" is 0xF841. -/
theorem c3_crc16_arc_correct :
    (∀ data : List Nat, (∀ b ∈ data, b < 256) → crc16_arc data = crc16_arc_ref data) ∧
    crc16_arc [0x44, 0x65, 0x63, 0x65, 0x70, 0x74, 0x69, 0x6F] = 0xF841 := by
  constructor
  · intro data hd
    exact crc_fold_eq data 0 hd
  · decide

/-- Witness for C3 at a concrete byte string. -/
theorem c3_crc16_arc_correct_witness :
    crc16_arc [0x00, 0xFF, 0x5A] = crc16_arc_ref [0x00, 0xFF, 0x5A] :=
  c3_crc16_arc_correct.1 [0x00, 0xFF, 0x5A] (by decide)

/-! ### P3 packets (packet.py lines 68-353)

A Packet holds the eight dataclass fields.  The two concrete directions,
ClientPacket and ServerPacket, differ only in the transmitted type byte
(client ORs in 0x80, server leaves it alone) and in the decode-time mask,
so they are embedded as one structure plus a Direction parameter.
The packet_type field stays a plain natural: the Python code converts a
recognized raw value to the IntEnum member, which compares equal to the
raw int, so the conversion is the identity in this model. -/

inductive Direction where
  | client
  | server
deriving DecidableEq

/-- Transmitted type byte: ClientPacket uses packet_type OR 0x80 in both
its byte serialization and its CRC input; ServerPacket uses packet_type
unchanged. -/
def typeByte : Direction → Nat → Nat
  | .client, pt => pt ||| 0x80
  | .server, pt => pt

structure Packet where
  packet_type : Nat
  tx_seq : Nat
  rx_seq : Nat
  payload : List Nat
  sync : Nat
  crc : Nat
  length : Nat
  msg_end : List Nat
deriving DecidableEq

/-- Big-endian 16-bit byte pair of n, as produced by struct format H for
n < 65536 (the only case reachable from the claims; toBytes enforces the
packing bound). -/
def be16 (n : Nat) : List Nat := [n / 256, n % 256]

/-- The exact byte string the CRC is computed over: the packed crc header
(length, tx_seq, rx_seq, transmitted type byte) followed by the payload. -/
def crcInput (d : Direction) (p : Packet) : List Nat :=
  be16 p.length ++ [p.tx_seq, p.rx_seq, typeByte d p.packet_type] ++ p.payload

/-- Embedding of ClientPacket.compute_crc / ServerPacket.compute_crc. -/
def computeCrc (d : Direction) (p : Packet) : Nat :=
  crc16_arc (crcInput d p)

/-- Embedding of the dataclass constructor plus Packet.__post_init__:
when length is not given it becomes len(payload) + 3, and when crc is not
given it is computed over the packet (with length already resolved). -/
def Packet.init (d : Direction) (pt tx rx : Nat) (payload : List Nat)
    (sync : Nat) (crc0 : Option Nat) (length0 : Option Nat)
    (mend : List Nat) : Packet :=
  let len := length0.getD (payload.length + 3)
  let base : Packet :=
    { packet_type := pt, tx_seq := tx, rx_seq := rx, payload := payload,
      sync := sync, crc := 0, length := len, msg_end := mend }
  { base with crc := crc0.getD (computeCrc d base) }

/-- A packet built as ClientPacket(pt, tx, rx, payload) or
ServerPacket(pt, tx, rx, payload), with every defaulted field defaulted. -/
def mkPacket (d : Direction) (pt tx rx : Nat) (payload : List Nat) : Packet :=
  Packet.init d pt tx rx payload 0x5A none none [0x0D]

/-- The values of the PacketType enumeration. -/
def packetTypeValues : List Nat :=
  [0x20, 0x21, 0x22, 0x23, 0x24, 0x25, 0x26, 0x28, 0x29, 0x2A, 0x2B, 0x5A]

/-- Membership test used by is_valid and from_bytes. -/
def isPacketType (n : Nat) : Bool := packetTypeValues.contains n

/-- Embedding of Packet.is_valid with V3ClientPacket/V3ServerPacket's
is_valid_crc (crc equals recomputed crc). -/
def isValid (d : Direction) (p : Packet) (strict : Bool) : Bool :=
  (if strict then
    decide (p.sync = 0x5A) && isPacketType p.packet_type
      && decide (p.msg_end = [0x0D])
  else true)
  && decide (p.crc = computeCrc d p)

/-- Packing a single byte (struct format B): fails outside 0..255. -/
def packB (n : Nat) : Option (List Nat) :=
  if n < 256 then some [n] else none

/-- Packing a 16-bit big-endian word (struct format H): fails outside
0..65535. -/
def packH (n : Nat) : Option (List Nat) :=
  if n < 65536 then some (be16 n) else none

/-- Embedding of ClientPacket.__bytes__ / ServerPacket.__bytes__:
packed header (sync, crc, length, tx_seq, rx_seq, transmitted type byte)
followed by the raw payload and msg_end bytes.  Option models the
struct.error raised on an out-of-range field. -/
def toBytes (d : Direction) (p : Packet) : Option (List Nat) := do
  let s ← packB p.sync
  let c ← packH p.crc
  let l ← packH p.length
  let t ← packB p.tx_seq
  let r ← packB p.rx_seq
  let ty ← packB (typeByte d p.packet_type)
  pure (s ++ c ++ l ++ t ++ r ++ ty ++ p.payload ++ p.msg_end)

/-- Embedding of ClientPacket.from_bytes / ServerPacket.from_bytes.
None models the ValueError on input shorter than 9 bytes.  The header is
the first 8 bytes (big-endian crc and length), the client direction masks
the raw type byte with 0x7F, payload is data[8 : 8 + max(0, length-3)]
(Nat subtraction gives the clamp at 0, List.take the slice truncation),
and msg_end is the final byte of the input.  The packet is rebuilt without
a length argument, so post-init recomputes length from the sliced
payload. -/
def fromBytes (d : Direction) (data : List Nat) : Option Packet :=
  if data.length < 9 then none
  else
    let crc := data.getD 1 0 * 256 + data.getD 2 0
    let length := data.getD 3 0 * 256 + data.getD 4 0
    let pt := match d with
      | .client => data.getD 7 0 &&& 0x7F
      | .server => data.getD 7 0
    let payload := (data.drop 8).take (length - 3)
    some (Packet.init d pt (data.getD 5 0) (data.getD 6 0) payload
      (data.getD 0 0) (some crc) none [data.getLastD 0])

/-! ### Payload decoders (packet.py lines 356-566) -/

structure DataPayload where
  token : List Nat
  data : List Nat
deriving DecidableEq

/-- Embedding of DataPayload.from_bytes: ValueError (None) below 2 bytes,
else token := first two bytes, data := the rest. -/
def dataPayloadFromBytes (payload : List Nat) : Option DataPayload :=
  if payload.length < 2 then none
  else some { token := payload.take 2, data := payload.drop 2 }

structure V3InitPayload where
  platform : Nat
  major_ver : Nat
  minor_ver : Nat
  unused : Nat
  machine_memory : Nat
  app_memory : Nat
  pc_type : Nat
  release_month : Nat
  release_day : Nat
  customer_class : Nat
  udo_timestamp : Nat
  dos_ver : Nat
  session_flags : Nat
  video_type : Nat
  cpu_type : Nat
  media_type : Nat
  win_ver : Nat
  win_memory_mode : Nat
  horizontal_res : Nat
  vertical_res : Nat
  num_colors : Nat
  filler : Nat
  region : Nat
  languages : List Nat
  connect_speed : Nat
deriving DecidableEq

/-- Big-endian 16-bit read at offset i. -/
def readU16 (l : List Nat) (i : Nat) : Nat :=
  l.getD i 0 * 256 + l.getD (i + 1) 0

/-- Big-endian 32-bit read at offset i. -/
def readU32 (l : List Nat) (i : Nat) : Nat :=
  ((l.getD i 0 * 256 + l.getD (i + 1) 0) * 256 + l.getD (i + 2) 0) * 256
    + l.getD (i + 3) 0

/-- Embedding of V3InitPayload.from_bytes: ValueError (None) below the
49-byte struct size, else the fixed big-endian field layout of
_init_struct unpacked from the first 49 bytes. -/
def v3InitPayloadFromBytes (p : List Nat) : Option V3InitPayload :=
  if p.length < 49 then none
  else some {
    platform := p.getD 0 0
    major_ver := p.getD 1 0
    minor_ver := p.getD 2 0
    unused := p.getD 3 0
    machine_memory := p.getD 4 0
    app_memory := p.getD 5 0
    pc_type := readU16 p 6
    release_month := p.getD 8 0
    release_day := p.getD 9 0
    customer_class := readU16 p 10
    udo_timestamp := readU32 p 12
    dos_ver := readU16 p 16
    session_flags := readU16 p 18
    video_type := p.getD 20 0
    cpu_type := p.getD 21 0
    media_type := readU32 p 22
    win_ver := readU32 p 26
    win_memory_mode := p.getD 30 0
    horizontal_res := readU16 p 31
    vertical_res := readU16 p 33
    num_colors := readU16 p 35
    filler := p.getD 37 0
    region := readU16 p 38
    languages := [readU16 p 40, readU16 p 42, readU16 p 44, readU16 p 46]
    connect_speed := p.getD 48 0 }

/-! ### Packet codec theorems -/

set_option maxRecDepth 4096 in
theorem crcTable_getD_lt (i : Nat) : crcTable.getD i 0 < 65536 := by
  by_cases h : i < 256
  · have hb : ∀ j < 256, crcTable.getD j 0 < 65536 := by decide
    exact hb i h
  · rw [List.getD_eq_default]
    · omega
    · have hlen : crcTable.length = 256 := by decide
      omega

theorem crc_fold_lt (data : List Nat) (c : Nat) (hc : c < 65536) :
    data.foldl
      (fun crc byte => (crc >>> 8) ^^^ crcTable.getD ((crc ^^^ byte) &&& 0xFF) 0)
      c < 65536 := by
  induction data generalizing c with
  | nil => exact hc
  | cons x xs ih =>
    apply ih
    have h1 : c >>> 8 < 65536 := by
      rw [Nat.shiftRight_eq_div_pow]
      omega
    have h2 : crcTable.getD ((c ^^^ x) &&& 0xFF) 0 < 65536 := crcTable_getD_lt _
    have h16 : (65536 : Nat) = 2 ^ 16 := by norm_num
    rw [h16] at h1 h2 ⊢
    exact Nat.xor_lt_two_pow h1 h2

theorem crc16_arc_lt (data : List Nat) : crc16_arc data < 65536 :=
  crc_fold_lt data 0 (by omega)

theorem typeByte_lt (d : Direction) (pt : Nat) (hpt : pt < 256) :
    typeByte d pt < 256 := by
  cases d
  · have h8 : (256 : Nat) = 2 ^ 8 := by norm_num
    rw [typeByte, h8] at *
    exact Nat.or_lt_two_pow hpt (by norm_num)
  · exact hpt

/-- C2: serializing a packet built as (Client|Server)Packet(pt, tx, rx, p)
produces exactly sync 0x5A, the big-endian crc, the big-endian length
len(p)+3, tx_seq, rx_seq, the transmitted type byte (pt OR 0x80 for the
client direction, pt unchanged for the server direction), the payload, and
msg_end 0x0D, where the crc is CRC16-ARC over exactly the big-endian
length, tx_seq, rx_seq, transmitted type byte, and payload. -/
theorem c2_serialization (d : Direction) (pt tx rx : Nat) (payload : List Nat)
    (hpt : pt < 256) (htx : tx < 256) (hrx : rx < 256)
    (hlen : payload.length ≤ 65532) :
    toBytes d (mkPacket d pt tx rx payload) =
      some ([0x5A]
        ++ be16 (crc16_arc (be16 (payload.length + 3)
            ++ [tx, rx, typeByte d pt] ++ payload))
        ++ be16 (payload.length + 3)
        ++ [tx, rx, typeByte d pt] ++ payload ++ [0x0D]) := by
  have hty : typeByte d pt < 256 := typeByte_lt d pt hpt
  have hl3 : payload.length + 3 < 65536 := by omega
  simp [toBytes, mkPacket, Packet.init, computeCrc, crcInput, packB, packH,
    htx, hrx, hty, hl3]
  rw [if_pos (crc16_arc_lt _)]
  simp

/-- Witness for C2 at a concrete packet. -/
theorem c2_serialization_witness :
    toBytes Direction.client (mkPacket Direction.client 0x24 0x20 0x30 []) =
      some ([0x5A]
        ++ be16 (crc16_arc (be16 3 ++ [0x20, 0x30, typeByte Direction.client 0x24]))
        ++ be16 3 ++ [0x20, 0x30, typeByte Direction.client 0x24] ++ [0x0D]) := by
  have h := c2_serialization Direction.client 0x24 0x20 0x30 []
    (by decide) (by decide) (by decide) (by decide)
  simpa using h

/-- Fields of a packet that the struct packing done by compute_crc
requires to be in byte and word range (any packet reachable from the
Python constructors satisfies this). -/
def Packet.wf (p : Packet) : Prop :=
  p.length < 65536 ∧ p.tx_seq < 256 ∧ p.rx_seq < 256 ∧ p.packet_type < 256

instance (p : Packet) : Decidable p.wf := by
  unfold Packet.wf
  infer_instance

/-- C4: is_valid with strict=true is true exactly when sync is 0x5A, the
packet type is a PacketType member, msg_end is 0x0D and the stored crc
equals the recomputed crc; is_valid with strict=false is true exactly when
the stored crc equals the recomputed crc, regardless of the other
fields. -/
theorem c4_is_valid (d : Direction) (p : Packet) (_hwf : p.wf) :
    (isValid d p true = true ↔
      (p.sync = 0x5A ∧ p.packet_type ∈ packetTypeValues ∧
        p.msg_end = [0x0D] ∧ p.crc = computeCrc d p)) ∧
    (isValid d p false = true ↔ p.crc = computeCrc d p) := by
  constructor
  · simp [isValid, isPacketType, and_assoc]
  · simp [isValid]

/-- Witness for C4 at a concrete packet. -/
theorem c4_is_valid_witness :
    isValid Direction.server (mkPacket Direction.server 0x24 0x7F 0x7F []) false
        = true ↔
      (mkPacket Direction.server 0x24 0x7F 0x7F []).crc
        = computeCrc Direction.server (mkPacket Direction.server 0x24 0x7F 0x7F []) :=
  (c4_is_valid Direction.server (mkPacket Direction.server 0x24 0x7F 0x7F [])
    (by decide)).2

/-- A 9-byte client ACK frame whose crc field is zeroed out (the correct
crc is 0x3514). -/
def badCrcFrame : List Nat :=
  [0x5A, 0x00, 0x00, 0x00, 0x03, 0x20, 0x30, 0xA4, 0x0D]

/-- C5: each decoder fails exactly on too-short input: packet decode below
9 bytes, DataPayload decode below 2 bytes, V3InitPayload decode below 49
bytes; everything at or above the bound decodes, and in particular the
9-byte frame with a wrong crc decodes to a packet on which strict
is_valid merely returns false. -/
theorem c5_decoders_reject_only_short_input (d : Direction) (data : List Nat) :
    ((fromBytes d data).isSome ↔ 9 ≤ data.length) ∧
    ((dataPayloadFromBytes data).isSome ↔ 2 ≤ data.length) ∧
    ((v3InitPayloadFromBytes data).isSome ↔ 49 ≤ data.length) ∧
    (fromBytes Direction.client badCrcFrame).map
      (fun p => isValid Direction.client p true) = some false := by
  refine ⟨?_, ?_, ?_, ?_⟩
  · by_cases h : data.length < 9 <;> simp [fromBytes, h] <;> omega
  · by_cases h : data.length < 2 <;> simp [dataPayloadFromBytes, h] <;> omega
  · by_cases h : data.length < 49 <;> simp [v3InitPayloadFromBytes, h] <;> omega
  · decide

/-- Witness for C5 at a concrete direction and input. -/
theorem c5_decoders_reject_only_short_input_witness :
    (fromBytes Direction.server [1, 2, 3]).isSome ↔ 9 ≤ ([1, 2, 3] : List Nat).length :=
  (c5_decoders_reject_only_short_input Direction.server [1, 2, 3]).1

theorem getLastD_irrel (l : List Nat) (x y : Nat) (h : l ≠ []) :
    l.getLastD x = l.getLastD y := by
  cases l with
  | nil => exact absurd rfl h
  | cons a t => rw [List.getLastD_cons, List.getLastD_cons]

/-- What from_bytes computes on any input of at least 9 bytes, with the
input split into the 8 header bytes and the nonempty remainder. -/
theorem fromBytes_cons (d : Direction) (b0 b1 b2 b3 b4 b5 b6 b7 : Nat)
    (rest : List Nat) (h : rest ≠ []) :
    fromBytes d (b0 :: b1 :: b2 :: b3 :: b4 :: b5 :: b6 :: b7 :: rest) =
      some (Packet.init d
        (match d with
          | .client => b7 &&& 0x7F
          | .server => b7)
        b5 b6 (rest.take (b3 * 256 + b4 - 3)) b0 (some (b1 * 256 + b2)) none
        [rest.getLastD 0]) := by
  have hlen9 : ¬((b0 :: b1 :: b2 :: b3 :: b4 :: b5 :: b6 :: b7 :: rest).length < 9) := by
    have := List.length_pos.2 h
    simp [List.length_cons]
    omega
  simp only [fromBytes]
  rw [if_neg hlen9]
  simp only [List.getD_cons_zero, List.getD_cons_succ, List.drop_succ_cons,
    List.drop_zero, List.getLastD_cons]
  rw [getLastD_irrel rest b7 0 h]

/-- C1: for every PacketType value, sequence numbers below 256 and payload
of length at most 65532, serializing the client (resp. server) packet
built from them and decoding the bytes back gives a packet equal to the
original in all eight fields, and that packet is strictly valid. -/
theorem c1_round_trip (d : Direction) (pt tx rx : Nat) (payload : List Nat)
    (hpt : pt ∈ packetTypeValues) (htx : tx < 256) (hrx : rx < 256)
    (hlen : payload.length ≤ 65532) :
    ∃ w, toBytes d (mkPacket d pt tx rx payload) = some w ∧
      fromBytes d w = some (mkPacket d pt tx rx payload) ∧
      isValid d (mkPacket d pt tx rx payload) true = true := by
  have hpt12 : pt = 0x20 ∨ pt = 0x21 ∨ pt = 0x22 ∨ pt = 0x23 ∨ pt = 0x24 ∨
      pt = 0x25 ∨ pt = 0x26 ∨ pt = 0x28 ∨ pt = 0x29 ∨ pt = 0x2A ∨
      pt = 0x2B ∨ pt = 0x5A := by
    simpa [packetTypeValues] using hpt
  have hmask : (pt ||| 0x80) &&& 0x7F = pt := by
    rcases hpt12 with rfl | rfl | rfl | rfl | rfl | rfl | rfl | rfl | rfl | rfl | rfl | rfl <;>
      decide
  have hpt256 : pt < 256 := by
    rcases hpt12 with rfl | rfl | rfl | rfl | rfl | rfl | rfl | rfl | rfl | rfl | rfl | rfl <;>
      decide
  have hser := c2_serialization d pt tx rx payload hpt256 htx hrx hlen
  refine ⟨_, hser, ?_, ?_⟩
  · have hW : ([0x5A]
        ++ be16 (crc16_arc (be16 (payload.length + 3)
            ++ [tx, rx, typeByte d pt] ++ payload))
        ++ be16 (payload.length + 3)
        ++ [tx, rx, typeByte d pt] ++ payload ++ [0x0D])
        = 0x5A
          :: (crc16_arc (be16 (payload.length + 3)
              ++ [tx, rx, typeByte d pt] ++ payload) / 256)
          :: (crc16_arc (be16 (payload.length + 3)
              ++ [tx, rx, typeByte d pt] ++ payload) % 256)
          :: ((payload.length + 3) / 256)
          :: ((payload.length + 3) % 256)
          :: tx :: rx :: typeByte d pt :: (payload ++ [13]) := by
      simp [be16]
    rw [hW, fromBytes_cons d _ _ _ _ _ _ _ _ _ (by simp)]
    have h1 : (payload.length + 3) / 256 * 256 + (payload.length + 3) % 256
        = payload.length + 3 := by omega
    have h2 : crc16_arc (be16 (payload.length + 3)
          ++ [tx, rx, typeByte d pt] ++ payload) / 256 * 256
        + crc16_arc (be16 (payload.length + 3)
          ++ [tx, rx, typeByte d pt] ++ payload) % 256
        = crc16_arc (be16 (payload.length + 3)
          ++ [tx, rx, typeByte d pt] ++ payload) := by omega
    have htake : (payload ++ [13]).take (payload.length + 3 - 3) = payload := by
      rw [Nat.add_sub_cancel]
      exact List.take_left payload [13]
    have hlast : (payload ++ [13]).getLastD 0 = 13 := List.getLastD_concat _ _ _
    rw [h1, h2, htake, hlast]
    cases d
    · simp [typeByte, mkPacket, Packet.init, computeCrc, crcInput, hmask]
    · simp [typeByte, mkPacket, Packet.init, computeCrc, crcInput]
  · simp [isValid, mkPacket, Packet.init, isPacketType, computeCrc, crcInput, hpt]

/-- Witness for C1 at a concrete packet in each direction. -/
theorem c1_round_trip_witness :
    (∃ w, toBytes Direction.client (mkPacket Direction.client 0x24 0x20 0x30 [0xAB]) = some w ∧
      fromBytes Direction.client w = some (mkPacket Direction.client 0x24 0x20 0x30 [0xAB]) ∧
      isValid Direction.client (mkPacket Direction.client 0x24 0x20 0x30 [0xAB]) true = true) ∧
    (∃ w, toBytes Direction.server (mkPacket Direction.server 0x25 0x17 0x1B [0x02]) = some w ∧
      fromBytes Direction.server w = some (mkPacket Direction.server 0x25 0x17 0x1B [0x02]) ∧
      isValid Direction.server (mkPacket Direction.server 0x25 0x17 0x1B [0x02]) true = true) :=
  ⟨c1_round_trip Direction.client 0x24 0x20 0x30 [0xAB]
      (by decide) (by decide) (by decide) (by decide),
    c1_round_trip Direction.server 0x25 0x17 0x1B [0x02]
      (by decide) (by decide) (by decide) (by decide)⟩

/-- A client ACK frame (tx 0x20, rx 0x30, declared length 3, so empty
payload) with two garbage bytes 0xFF 0xFF wedged between the payload end
and the final 0x0D. -/
def garbageFrame : List Nat :=
  [0x5A, 0x35, 0x14, 0x00, 0x03, 0x20, 0x30, 0xA4, 0xFF, 0xFF, 0x0D]

/-- C10: the decoders take the payload purely from the header's length
field and msg_end purely from the final input byte, so bytes between the
declared payload end and the last byte are discarded: inserting junk there
does not change the decoded packet, and the concrete garbage frame still
decodes to a strictly valid packet. -/
theorem c10_trailing_bytes_ignored :
    (∀ (d : Direction) (b0 b1 b2 b3 b4 b5 b6 b7 : Nat)
        (payload junk : List Nat) (lastb : Nat),
      payload.length = b3 * 256 + b4 - 3 →
      fromBytes d (b0 :: b1 :: b2 :: b3 :: b4 :: b5 :: b6 :: b7
          :: (payload ++ junk ++ [lastb]))
        = fromBytes d (b0 :: b1 :: b2 :: b3 :: b4 :: b5 :: b6 :: b7
          :: (payload ++ [lastb]))) ∧
    (∀ (d : Direction) (data : List Nat) (p : Packet),
      fromBytes d data = some p →
      p.payload = (data.drop 8).take (data.getD 3 0 * 256 + data.getD 4 0 - 3) ∧
      p.msg_end = [data.getLastD 0]) ∧
    (fromBytes Direction.client garbageFrame).map
      (fun q => isValid Direction.client q true) = some true := by
  refine ⟨?_, ?_, ?_⟩
  · intro d b0 b1 b2 b3 b4 b5 b6 b7 payload junk lastb hp
    rw [fromBytes_cons d _ _ _ _ _ _ _ _ _ (by simp),
      fromBytes_cons d _ _ _ _ _ _ _ _ _ (by simp)]
    have htake1 : (payload ++ junk ++ [lastb]).take (b3 * 256 + b4 - 3) = payload := by
      rw [← hp, List.append_assoc]
      exact List.take_left payload (junk ++ [lastb])
    have htake2 : (payload ++ [lastb]).take (b3 * 256 + b4 - 3) = payload := by
      rw [← hp]
      exact List.take_left payload [lastb]
    have hlast1 : (payload ++ junk ++ [lastb]).getLastD 0 = lastb :=
      List.getLastD_concat _ _ _
    have hlast2 : (payload ++ [lastb]).getLastD 0 = lastb :=
      List.getLastD_concat _ _ _
    rw [htake1, htake2, hlast1, hlast2]
  · intro d data p hp
    by_cases h : data.length < 9
    · simp [fromBytes, h] at hp
    · simp [fromBytes, h] at hp
      rw [← hp]
      simp [Packet.init]
  · decide

/-- Witness for C10 at a concrete junk-bearing frame. -/
theorem c10_trailing_bytes_ignored_witness :
    fromBytes Direction.client
        (0x5A :: 0x35 :: 0x14 :: 0x00 :: 0x03 :: 0x20 :: 0x30 :: 0xA4
          :: (([] : List Nat) ++ [0xFF, 0xFF] ++ [0x0D]))
      = fromBytes Direction.client
        (0x5A :: 0x35 :: 0x14 :: 0x00 :: 0x03 :: 0x20 :: 0x30 :: 0xA4
          :: (([] : List Nat) ++ [0x0D])) :=
  c10_trailing_bytes_ignored.1 Direction.client 0x5A 0x35 0x14 0x00 0x03 0x20
    0x30 0xA4 [] [0xFF, 0xFF] 0x0D (by decide)

/-! ### aio.py: AwaitableVar and Endpoint (aio.py lines 65-384)

The asyncio coroutines are embedded by their observable state segments:
the state written before the first suspension, and the state written while
unwinding after the awaiting task is cancelled (exactly the enclosing
try/finally blocks run during a CancelledError unwind; an await with no
enclosing finally runs nothing).  asyncio Event and Future objects are
identified by a caller-chosen Nat id. -/

/-- State of an AwaitableVar: the value plus the registered per-waiter
events (value_change_events; the Python set holds distinct freshly made
Event objects, modeled as a list of ids). -/
structure AVar (α : Type) where
  value : α
  value_change_events : List Nat
deriving DecidableEq

inductive WaitStart (α : Type) where
  | immediate (s : AVar α)
  | suspended (s : AVar α)
deriving DecidableEq

/-- Prefix of wait_for_value(target) up to its first suspension: if the
value already equals the target it returns with no state change, else it
creates a fresh event e, adds it to value_change_events and suspends in
the await loop. -/
def waitForValueStart [DecidableEq α] (s : AVar α) (target : α) (e : Nat) :
    WaitStart α :=
  if s.value = target then .immediate s
  else .suspended { s with value_change_events := s.value_change_events ++ [e] }

/-- State after the task suspended in wait_for_value's await loop is
cancelled: the method wraps no try/finally around the loop, so the
CancelledError unwind executes no cleanup and the state is unchanged; in
particular the event e added on entry is still registered. -/
def waitForValueOnCancel (s : AVar α) (e : Nat) : AVar α := s

/-- Completion of wait_for_value after the loop observes the target: the
final statement removes the event from value_change_events. -/
def waitForValueOnComplete (s : AVar α) (e : Nat) : AVar α :=
  { s with value_change_events := s.value_change_events.erase e }

/-- Observable Endpoint state for the claims: backpressure flag, pending
flush futures, receive buffer, and the single pending buffer future. -/
structure Endpoint where
  connected : Bool
  writing_paused : Bool
  flush_awaiters : List Nat
  buffer : List Nat
  buffer_awaiter : Option Nat
deriving DecidableEq

inductive FlushStart where
  | done (s : Endpoint)
  | suspended (s : Endpoint)
deriving DecidableEq

/-- Prefix of flush() up to its first suspension: returns immediately when
writing is not paused, else creates a future f, appends it to
flush_awaiters and awaits it. -/
def flushStart (s : Endpoint) (f : Nat) : FlushStart :=
  if s.writing_paused = false then .done s
  else .suspended { s with flush_awaiters := s.flush_awaiters ++ [f] }

/-- State after the task suspended in flush() is cancelled: the await sits
in a try whose finally removes the future from flush_awaiters, and the
finally runs during the CancelledError unwind. -/
def flushOnCancel (s : Endpoint) (f : Nat) : Endpoint :=
  { s with flush_awaiters := s.flush_awaiters.erase f }

/-- Prefix of wait_for_buffer up to its suspension: RuntimeError (None)
when another coroutine already awaits the buffer, else stores a fresh
future and awaits it. -/
def waitForBufferStart (s : Endpoint) (f : Nat) : Option Endpoint :=
  if s.buffer_awaiter.isSome then none
  else some { s with buffer_awaiter := some f }

/-- State after the task suspended in wait_for_buffer is cancelled: its
finally sets buffer_awaiter back to None during the unwind. -/
def waitForBufferOnCancel (s : Endpoint) : Endpoint :=
  { s with buffer_awaiter := none }

/-- C7 evaluation.  The flush and wait_for_buffer parts of the claim hold:
cancellation restores flush_awaiters and clears buffer_awaiter.  The
AwaitableVar part fails on the code: wait_for_value has no try/finally, so
at the concrete failing input (a Flag at false whose waiter for true is
cancelled) the abandoned event is still in value_change_events. -/
theorem c7_cancellation_cleanup :
    (∀ (s : Endpoint) (f : Nat), s.writing_paused = true →
      f ∉ s.flush_awaiters →
      ∃ s', flushStart s f = .suspended s' ∧
        (flushOnCancel s' f).flush_awaiters = s.flush_awaiters) ∧
    (∀ (s : Endpoint) (f : Nat), s.buffer_awaiter = none →
      ∃ s', waitForBufferStart s f = some s' ∧
        (waitForBufferOnCancel s').buffer_awaiter = none) ∧
    (waitForValueStart (AVar.mk false []) true 7 =
        .suspended (AVar.mk false [7]) ∧
      (waitForValueOnCancel (AVar.mk false [7]) 7).value_change_events = [7]) := by
  refine ⟨?_, ?_, by decide, by decide⟩
  · intro s f hp hf
    refine ⟨{ s with flush_awaiters := s.flush_awaiters ++ [f] }, ?_, ?_⟩
    · simp [flushStart, hp]
    · simp [flushOnCancel, List.erase_append_right _ hf]
  · intro s f hb
    refine ⟨{ s with buffer_awaiter := some f }, ?_, ?_⟩
    · simp [waitForBufferStart, hb]
    · simp [waitForBufferOnCancel]

/-- Witness for C7's universally quantified conjuncts at a concrete
endpoint. -/
theorem c7_cancellation_cleanup_witness :
    (∃ s', flushStart (Endpoint.mk true true [3] [] none) 9 = .suspended s' ∧
      (flushOnCancel s' 9).flush_awaiters = [3]) ∧
    (∃ s', waitForBufferStart (Endpoint.mk true false [] [1] none) 9 = some s' ∧
      (waitForBufferOnCancel s').buffer_awaiter = none) :=
  ⟨c7_cancellation_cleanup.1 (Endpoint.mk true true [3] [] none) 9
      (by decide) (by decide),
    c7_cancellation_cleanup.2.1 (Endpoint.mk true false [] [1] none) 9
      (by decide)⟩

inductive RecvResult where
  | valueError
  | suspends
  | done (data : List Nat) (s : Endpoint)
deriving DecidableEq

/-- Embedding of Endpoint.recv: ValueError on negative size, empty result
for size 0, suspension in wait_for_buffer when the buffer is empty, else
the first size bytes are removed from the buffer and returned. -/
def recv (size : Int) (s : Endpoint) : RecvResult :=
  if size < 0 then .valueError
  else if size = 0 then .done [] s
  else if s.buffer = [] then .suspends
  else .done (s.buffer.take size.toNat)
    { s with buffer := s.buffer.drop size.toNat }

/-- C8: recv raises exactly for negative size; recv 0 returns empty bytes
leaving the state untouched; for positive size and a nonempty buffer it
returns the first min(size, buffer length) bytes and leaves exactly the
remaining suffix buffered. -/
theorem c8_recv (size : Int) (s : Endpoint) :
    (recv size s = .valueError ↔ size < 0) ∧
    recv 0 s = .done [] s ∧
    (0 < size → s.buffer ≠ [] →
      recv size s = .done (s.buffer.take size.toNat)
          { s with buffer := s.buffer.drop size.toNat } ∧
        (s.buffer.take size.toNat).length = min size.toNat s.buffer.length ∧
        s.buffer.take size.toNat ++ s.buffer.drop size.toNat = s.buffer) := by
  refine ⟨?_, ?_, ?_⟩
  · constructor
    · intro h
      by_contra hneg
      rw [recv, if_neg hneg] at h
      by_cases h0 : size = 0
      · simp [h0] at h
      · rw [if_neg h0] at h
        by_cases hb : s.buffer = [] <;> simp [hb] at h
    · intro h
      simp [recv, h]
  · simp [recv]
  · intro hpos hb
    have hneg : ¬(size < 0) := by omega
    have h0 : ¬(size = 0) := by omega
    refine ⟨by simp [recv, hneg, h0, hb], List.length_take _ _, List.take_append_drop _ _⟩

/-- Witness for C8 at a concrete size and endpoint. -/
theorem c8_recv_witness :
    recv 2 (Endpoint.mk true false [] [1, 2, 3] none)
        = .done ((Endpoint.mk true false [] [1, 2, 3] none).buffer.take (2 : Int).toNat)
          { Endpoint.mk true false [] [1, 2, 3] none with
            buffer := (Endpoint.mk true false [] [1, 2, 3] none).buffer.drop (2 : Int).toNat } :=
  ((c8_recv 2 (Endpoint.mk true false [] [1, 2, 3] none)).2.2
    (by decide) (by decide)).1

/-! ### msg.py: messages and the broker (msg.py lines 40-845)

Msg subclasses become one inductive; every constructor goes through
Msg.__init__, which draws msg_id from the process-wide itertools counter
(modeled by explicit counter passing) and leaves the timestamp unset.
DeadLetterMsg and WiretapMsg fix their sender strings.  Wall-clock
timestamps become an explicit now parameter. -/

inductive Msg where
  | cmdMsg (msgId : Nat) (timestamp : Option Nat) (sender cmd : String)
  | dataMsg (msgId : Nat) (timestamp : Option Nat) (sender : String)
  | eventMsg (msgId : Nat) (timestamp : Option Nat) (sender event : String)
  | deadLetterMsg (msgId : Nat) (timestamp : Option Nat) (channel_name : String)
      (msg : Msg)
  | wiretapMsg (msgId : Nat) (timestamp : Option Nat) (channel : String)
      (msg : Msg)
deriving DecidableEq

def Msg.msgId : Msg → Nat
  | .cmdMsg i _ _ _ => i
  | .dataMsg i _ _ => i
  | .eventMsg i _ _ _ => i
  | .deadLetterMsg i _ _ _ => i
  | .wiretapMsg i _ _ _ => i

/-- The sender attribute: CmdMsg, DataMsg and EventMsg carry the caller's
sender, DeadLetterMsg is always "deadletter" and WiretapMsg always
"wiretap". -/
def Msg.sender : Msg → String
  | .cmdMsg _ _ s _ => s
  | .dataMsg _ _ s => s
  | .eventMsg _ _ s _ => s
  | .deadLetterMsg _ _ _ _ => "deadletter"
  | .wiretapMsg _ _ _ _ => "wiretap"

def Msg.timestamp : Msg → Option Nat
  | .cmdMsg _ t _ _ => t
  | .dataMsg _ t _ => t
  | .eventMsg _ t _ _ => t
  | .deadLetterMsg _ t _ _ => t
  | .wiretapMsg _ t _ _ => t

/-- The assignment msg.timestamp = now done by MsgBroker.publish. -/
def Msg.setTimestamp : Msg → Nat → Msg
  | .cmdMsg i _ s c, t => .cmdMsg i (some t) s c
  | .dataMsg i _ s, t => .dataMsg i (some t) s
  | .eventMsg i _ s e, t => .eventMsg i (some t) s e
  | .deadLetterMsg i _ ch m, t => .deadLetterMsg i (some t) ch m
  | .wiretapMsg i _ ch m, t => .wiretapMsg i (some t) ch m

/-- Constructor arguments for one Msg construction. -/
inductive MsgSpec where
  | cmd (sender c : String)
  | data (sender : String)
  | event (sender e : String)
  | deadLetter (channel_name : String) (inner : Msg)
  | wiretap (channel : String) (inner : Msg)

/-- One Msg construction: Msg.__init__ assigns msg_id = next(counter) and
timestamp = None; returns the message and the advanced counter. -/
def constructMsg : MsgSpec → Nat → Msg × Nat
  | .cmd s c, n => (.cmdMsg n none s c, n + 1)
  | .data s, n => (.dataMsg n none s, n + 1)
  | .event s e, n => (.eventMsg n none s e, n + 1)
  | .deadLetter ch m, n => (.deadLetterMsg n none ch m, n + 1)
  | .wiretap ch m, n => (.wiretapMsg n none ch m, n + 1)

/-- A sequence of Msg constructions threaded through the counter. -/
def constructAll : List MsgSpec → Nat → List Msg × Nat
  | [], n => ([], n)
  | s :: rest, n =>
    let p := constructMsg s n
    let q := constructAll rest p.2
    (p.1 :: q.1, q.2)

theorem constructMsg_msgId (s : MsgSpec) (n : Nat) :
    (constructMsg s n).1.msgId = n ∧ (constructMsg s n).2 = n + 1 := by
  cases s <;> exact ⟨rfl, rfl⟩

theorem constructAll_msgId (specs : List MsgSpec) (n i : Nat) (m : Msg)
    (h : (constructAll specs n).1.get? i = some m) : m.msgId = n + i := by
  induction specs generalizing n i with
  | nil => simp [constructAll] at h
  | cons s rest ih =>
    match i with
    | 0 =>
      simp [constructAll] at h
      rw [← h]
      simpa using (constructMsg_msgId s n).1
    | k + 1 =>
      simp only [constructAll, List.get?_cons_succ] at h
      rw [(constructMsg_msgId s n).2] at h
      have := ih (n + 1) k h
      omega

/-- C9: in any sequence of Msg constructions (any mix of CmdMsg, DataMsg,
EventMsg, DeadLetterMsg, WiretapMsg) starting from counter n, the message
constructed at position i gets msg_id n + i, so ids are exactly the
construction order offsets (non-negative, and itertools.count() starts the
process at n = 0) and earlier constructions get strictly smaller ids. -/
theorem c9_msg_ids_strictly_increase (specs : List MsgSpec) (n i j : Nat)
    (a b : Msg) (hij : i < j)
    (ha : (constructAll specs n).1.get? i = some a)
    (hb : (constructAll specs n).1.get? j = some b) :
    a.msgId = n + i ∧ b.msgId = n + j ∧ a.msgId < b.msgId := by
  have h1 := constructAll_msgId specs n i a ha
  have h2 := constructAll_msgId specs n j b hb
  exact ⟨h1, h2, by omega⟩

/-- Witness for C9 at a concrete construction sequence. -/
theorem c9_msg_ids_strictly_increase_witness :
    (Msg.cmdMsg 0 none "svc" "go").msgId = 0 + 0 ∧
    (Msg.dataMsg 1 none "svc").msgId = 0 + 1 ∧
    (Msg.cmdMsg 0 none "svc" "go").msgId < (Msg.dataMsg 1 none "svc").msgId :=
  c9_msg_ids_strictly_increase [MsgSpec.cmd "svc" "go", MsgSpec.data "svc"]
    0 0 1 (Msg.cmdMsg 0 none "svc" "go") (Msg.dataMsg 1 none "svc")
    (by decide) rfl rfl

/-- One consumer's inbound queue (Consumer.in_queue). -/
structure ConsumerState where
  in_queue : List Msg
deriving DecidableEq

/-- One channel: its name and the consumers currently registered on it. -/
structure ChannelState where
  name : String
  consumers : List ConsumerState
deriving DecidableEq

/-- Broker state: the msg_id counter, the registered channels, and the
internal queue of (channel, message) pairs awaiting dispatch. -/
structure Broker where
  counter : Nat
  channels : List ChannelState
  in_queue : List (String × Msg)
deriving DecidableEq

def channelNames (b : Broker) : List String :=
  b.channels.map ChannelState.name

/-- Embedding of MsgBroker.publish: stamp the message's timestamp; if the
channel name is registered enqueue (channel, msg), otherwise construct a
DeadLetterMsg(channel_name, msg) (drawing the next msg_id), stamp it too,
and enqueue it for the dead_letter channel.  No failure path exists. -/
def publish (b : Broker) (now : Nat) (channel : String) (m : Msg) : Broker :=
  let m1 := m.setTimestamp now
  if channel ∈ channelNames b then
    { b with in_queue := b.in_queue ++ [(channel, m1)] }
  else
    let p := constructMsg (.deadLetter channel m1) b.counter
    { b with
      counter := p.2
      in_queue := b.in_queue ++ [("dead_letter", p.1.setTimestamp now)] }

/-- One turn of MsgBroker.dispatcher: take the head (channel, msg) pair
off the internal queue and append msg to the inbound queue of every
consumer currently registered on that channel. -/
def dispatchStep (b : Broker) : Broker :=
  match b.in_queue with
  | [] => b
  | (name, m) :: rest =>
    { b with
      in_queue := rest
      channels := b.channels.map (fun ch =>
        if ch.name = name then
          { ch with consumers := ch.consumers.map (fun co =>
              { co with in_queue := co.in_queue ++ [m] }) }
        else ch) }

/-- C6: publishing m to an unregistered channel name x does not fail;
it enqueues exactly one message for dead_letter, a DeadLetterMsg whose
channel_name is x, whose msg is the original (stamped) message, whose
sender is "deadletter" and whose timestamp is freshly stamped; and the
dispatcher then appends it to the queue of every consumer registered on
the dead_letter channel. -/
theorem c6_dead_letter_routing (b : Broker) (now : Nat) (x : String) (m : Msg)
    (hx : x ∉ channelNames b) (hq : b.in_queue = []) :
    publish b now x m
      = { b with
          counter := b.counter + 1
          in_queue := [("dead_letter",
            Msg.deadLetterMsg b.counter (some now) x (m.setTimestamp now))] } ∧
    (Msg.deadLetterMsg b.counter (some now) x (m.setTimestamp now)).sender
      = "deadletter" ∧
    (Msg.deadLetterMsg b.counter (some now) x (m.setTimestamp now)).timestamp
      = some now ∧
    (∀ i ch, b.channels.get? i = some ch → ch.name = "dead_letter" →
      ∃ ch', (dispatchStep (publish b now x m)).channels.get? i = some ch' ∧
        ch'.name = "dead_letter" ∧
        ch'.consumers.map ConsumerState.in_queue
          = ch.consumers.map (fun co => co.in_queue
              ++ [Msg.deadLetterMsg b.counter (some now) x (m.setTimestamp now)])) := by
  have hpub : publish b now x m
      = { b with
          counter := b.counter + 1
          in_queue := b.in_queue ++ [("dead_letter",
            Msg.deadLetterMsg b.counter (some now) x (m.setTimestamp now))] } := by
    simp [publish, hx, constructMsg, Msg.setTimestamp]
  refine ⟨by rw [hpub, hq]; rfl, rfl, rfl, ?_⟩
  intro i ch hi hname
  rw [hpub, hq]
  refine ⟨{ ch with consumers := ch.consumers.map (fun co =>
      { co with in_queue := co.in_queue
          ++ [Msg.deadLetterMsg b.counter (some now) x (m.setTimestamp now)] }) },
    ?_, by simpa using hname, by simp [List.map_map]⟩
  simp only [dispatchStep, List.nil_append]
  rw [List.get?_map, hi]
  simp [hname]

/-- Witness for C6 at a concrete broker, channel name and message. -/
theorem c6_dead_letter_routing_witness :
    publish
        (Broker.mk 4
          [ChannelState.mk "dead_letter" [ConsumerState.mk []],
            ChannelState.mk "wiretap" []] [])
        11 "nosuch" (Msg.dataMsg 2 none "svc")
      = { Broker.mk 4
            [ChannelState.mk "dead_letter" [ConsumerState.mk []],
              ChannelState.mk "wiretap" []] [] with
          counter := 4 + 1
          in_queue := [("dead_letter",
            Msg.deadLetterMsg 4 (some 11) "nosuch"
              ((Msg.dataMsg 2 none "svc").setTimestamp 11))] } :=
  (c6_dead_letter_routing
    (Broker.mk 4
      [ChannelState.mk "dead_letter" [ConsumerState.mk []],
        ChannelState.mk "wiretap" []] [])
    11 "nosuch" (Msg.dataMsg 2 none "svc") (by decide) rfl).1

end Pyol
